import Mathlib

/-!
Verification development for the ZAM value-representation layer and the
statement-transformation contract of the analyzed repository
(src/ZVal.h, src/StmtBase.h, src/ScriptAnaly.h).

The embedding is shallow: the C++ classes `ZAM_vector` and `ZAM_record`
become Lean structures, their member functions become pure functions that
return the updated state together with an explicit trace of the memory
management events (Ref/Unref calls on reference-counted heap objects) the
C++ code performs.  A `ZAMValUnion` cell is modelled through its
`managed_val` member (the one word of the union, viewed as the generic
managed-object pointer): `none` is the C++ null pointer, `some k` a pointer
to the heap object with identity `k`.  All the verified claims interrogate
cells through exactly this view.
-/

namespace ZeekModel

/-- Memory-management event: a call to `zeek::Ref` / `Unref` on a non-null
heap object, identified by a numeric object id. -/
inductive MemEvent where
  | ref (id : Nat)
  | unref (id : Nat)
deriving DecidableEq, Repr

def MemEvent.isRef : MemEvent → Bool
  | .ref _ => true
  | .unref _ => false

/-- Trace of `Unref(p)`: Zeek's `Unref` on a raw object pointer is a no-op
for the null pointer, otherwise it drops one reference. -/
def UnrefEv (p : Option Nat) : List MemEvent :=
  match p with
  | none => []
  | some k => [MemEvent.unref k]

/-- Trace of `Ref(p)` for a (possibly null) object pointer. -/
def RefEv (p : Option Nat) : List MemEvent :=
  match p with
  | none => []
  | some k => [MemEvent.ref k]

/-- Net change an event trace makes to object `k`'s reference count:
each `ref k` contributes +1, each `unref k` contributes -1. -/
def refDelta (k : Nat) : List MemEvent → Int
  | [] => 0
  | MemEvent.ref j :: rest => (if j = k then 1 else 0) + refDelta k rest
  | MemEvent.unref j :: rest => (if j = k then -1 else 0) + refDelta k rest

/-- Type tags (`zeek::TypeTag`); only the tags the modelled operations
inspect are distinguished, the others are represented by a sample of
ordinary concrete tags. -/
inductive TypeTag where
  | TYPE_ANY
  | TYPE_VOID
  | TYPE_INT
  | TYPE_COUNT
  | TYPE_DOUBLE
  | TYPE_STRING
  | TYPE_TABLE
  | TYPE_RECORD
  | TYPE_VECTOR
deriving DecidableEq, Repr

/-- A `zeek::Type`: its tag, plus whether values of the type are
reference-managed heap objects. -/
structure ZeekType where
  tag : TypeTag
  managed : Bool
deriving DecidableEq, Repr

/-- Modelled from the spec: `IsManagedType` is declared in ZVal.h but defined
in ZVal.cc, which is not part of src/.  The spec's type abstraction answers
"is this type reference-managed"; a null type handle is not managed. -/
def IsManagedType (t : Option ZeekType) : Bool :=
  match t with
  | none => false
  | some ty => ty.managed

/-- One `ZAMValUnion` cell, viewed through its `managed_val` member:
`none` models the null pointer, `some k` a pointer to heap object `k`. -/
structure ZAMValUnion where
  managed_val : Option Nat
deriving DecidableEq, Repr

namespace ZAMValUnion

/-- The default constructor `ZAMValUnion()`, which sets
`managed_val = nullptr`. -/
def mkDefault : ZAMValUnion := ⟨none⟩

/-- Modelled from the spec: `IsNil` is declared in ZVal.h but defined in
ZVal.cc, which is not part of src/.  Per the spec, for managed types it is
true iff the stored reference equals the nil sentinel (the null pointer);
for scalar types it is unused.  The type argument is kept for fidelity to
the C++ signature. -/
def IsNil (v : ZAMValUnion) (_t : ZeekType) : Bool :=
  v.managed_val.isNone

/-- Modelled from the spec: the converting constructor
`ZAMValUnion(IntrusivePtr<Val> v, const IntrusivePtr<Type>& t)` is defined in
ZVal.cc, which is not part of src/.  Per the spec, construction from a
dynamically-typed value acquires one reference for managed types, and fails
silently into the nil sentinel only for a null input value of a managed
type.  Returns the constructed cell and its event trace. -/
def construct (v : Option Nat) (t : ZeekType) : ZAMValUnion × List MemEvent :=
  if t.managed then
    match v with
    | none => (⟨none⟩, [])
    | some k => (⟨some k⟩, [MemEvent.ref k])
  else
    (⟨v⟩, [])

/-- Modelled from the spec: `ToVal` is declared in ZVal.h but defined in
ZVal.cc, which is not part of src/.  Per the spec, for managed types it
returns a new reference to the held value (incrementing its share count),
or a representation of "no value" if nil. -/
def ToVal (z : ZAMValUnion) (t : ZeekType) : Option Nat × List MemEvent :=
  if t.managed then
    match z.managed_val with
    | none => (none, [])
    | some k => (some k, [MemEvent.ref k])
  else
    (z.managed_val, [])

end ZAMValUnion

/-- `DeleteManagedType(ZAMValUnion& v) { Unref(v.managed_val); }` -/
def DeleteManagedType (v : ZAMValUnion) : List MemEvent :=
  UnrefEv v.managed_val

/-- `std::vector<ZAMValUnion>::resize(n)`: keeps the first `n` elements;
any newly created slots are value-initialized through the default
constructor, i.e. hold the null managed pointer.  No destructor of a
union member runs, so no reference is released. -/
def resizeList (l : List ZAMValUnion) (n : Nat) : List ZAMValUnion :=
  l.take n ++ List.replicate (n - l.length) ZAMValUnion.mkDefault

/-- The state of a `ZAM_vector`.  The back-pointer `vv` to the owning
`VectorVal` plays no role in any modelled operation and is omitted. -/
structure ZAM_vector where
  zvec : List ZAMValUnion
  managed_yt : Option ZeekType
  general_yt : Option ZeekType
deriving DecidableEq, Repr

namespace ZAM_vector

/-- The constructor `ZAM_vector(VectorVal*, IntrusivePtr<Type> yt, int n)`:
`zvec(n)` default-constructs `n` cells; if `yt` is non-null, `managed_yt`
is `yt` when `IsManagedType(yt)` and null otherwise, and `general_yt`
is `yt`; a null `yt` leaves both null. -/
def create (yt : Option ZeekType) (n : Nat) : ZAM_vector :=
  match yt with
  | some ty =>
      { zvec := List.replicate n ZAMValUnion.mkDefault
        managed_yt := if IsManagedType (some ty) then some ty else none
        general_yt := some ty }
  | none =>
      { zvec := List.replicate n ZAMValUnion.mkDefault
        managed_yt := none
        general_yt := none }

def Size (st : ZAM_vector) : Nat := st.zvec.length

def IsManagedYieldType (st : ZAM_vector) : Bool := st.managed_yt.isSome

/-- `SetYieldType(yt)`: updates both yield types, but only when
`general_yt` is null or its tag is `TYPE_ANY` or `TYPE_VOID`. -/
def SetYieldType (st : ZAM_vector) (yt : Option ZeekType) : ZAM_vector :=
  match st.general_yt with
  | none =>
      { st with
        managed_yt := if IsManagedType yt then yt else none
        general_yt := yt }
  | some t =>
      if t.tag = TypeTag.TYPE_ANY ∨ t.tag = TypeTag.TYPE_VOID then
        { st with
          managed_yt := if IsManagedType yt then yt else none
          general_yt := yt }
      else
        st

/-- `Lookup(n)`: returns the raw cell, no bounds growth.  (Out-of-range
access is undefined behaviour in the C++; the model totalizes it with the
default cell.) -/
def Lookup (st : ZAM_vector) (n : Nat) : ZAMValUnion :=
  st.zvec.getD n ZAMValUnion.mkDefault

/-- Modelled from the spec: `GrowVector` is declared in ZVal.h but defined
in ZVal.cc, which is not part of src/.  Per the spec, growing the container
zero-fills the new slots (the nil sentinel for a managed type). -/
def GrowVector (st : ZAM_vector) (size : Nat) : ZAM_vector :=
  { st with zvec := resizeList st.zvec size }

/-- `DeleteIfManaged(n)`: Unrefs element `n` when the yield type is
managed. -/
def DeleteIfManaged (st : ZAM_vector) (n : Nat) : List MemEvent :=
  if st.managed_yt.isSome then DeleteManagedType (st.Lookup n) else []

/-- `SetElement(n, v)`: grows to `n+1` when `zvec.size() <= n`, Unrefs the
previous occupant of slot `n` when the yield type is managed, then stores
`v` (no reference acquired). -/
def SetElement (st : ZAM_vector) (n : Nat) (v : ZAMValUnion) :
    ZAM_vector × List MemEvent :=
  let st1 := if st.zvec.length ≤ n then st.GrowVector (n + 1) else st
  let ev := if st1.managed_yt.isSome then DeleteManagedType (st1.Lookup n) else []
  ({ st1 with zvec := st1.zvec.set n v }, ev)

/-- `Insert(index, element)`: when `index < zvec.size()`, the C++ first
Unrefs the element currently at `index` (via `DeleteIfManaged`) and then
inserts `element` before it, shifting it (still alive in the vector) one
slot up; otherwise it inserts at the end with no release. -/
def Insert (st : ZAM_vector) (index : Nat) (element : ZAMValUnion) :
    ZAM_vector × List MemEvent :=
  if index < st.zvec.length then
    ({ st with zvec := st.zvec.take index ++ element :: st.zvec.drop index },
     st.DeleteIfManaged index)
  else
    ({ st with zvec := st.zvec ++ [element] }, [])

/-- `Remove(index)`: Unrefs the element at `index` when the yield type is
managed, then erases it. -/
def Remove (st : ZAM_vector) (index : Nat) : ZAM_vector × List MemEvent :=
  ({ st with zvec := st.zvec.take index ++ st.zvec.drop (index + 1) },
   st.DeleteIfManaged index)

/-- `Resize(new_num_elements) { zvec.resize(new_num_elements); }` —
a plain `std::vector::resize`, performing no Unref whatsoever. -/
def Resize (st : ZAM_vector) (new_num_elements : Nat) :
    ZAM_vector × List MemEvent :=
  ({ st with zvec := resizeList st.zvec new_num_elements }, [])

end ZAM_vector

/-- The state of a `ZAM_record`.  The back-pointer `rv` to the owning
`RecordVal` plays no role in any modelled operation and is omitted; of the
record type `rt` we keep the two pieces the modelled operations consult:
the per-field manage bitmap `is_managed` (supplied by the type and never
mutated) and, modelled from the spec, the per-field default values that
`SetToDefault` materializes. -/
structure ZAM_record where
  zvec : List ZAMValUnion
  is_in_record : List Bool
  is_managed : List Bool
  field_default : List (Option ZAMValUnion)
deriving DecidableEq, Repr

namespace ZAM_record

/-- Modelled from the spec: the constructor `ZAM_record(RecordVal*,
IntrusivePtr<RecordType>)` is defined in ZVal.cc, which is not part of
src/.  Per the spec, a record container is created with its type
descriptor, which fixes the field count and the manage bitmap, and every
field starts absent (optional-field absence is the initial state). -/
def create (md : List Bool) (dfl : List (Option ZAMValUnion)) : ZAM_record :=
  { zvec := List.replicate md.length ZAMValUnion.mkDefault
    is_in_record := List.replicate md.length false
    is_managed := md
    field_default := dfl }

def Size (st : ZAM_record) : Nat := st.zvec.length

def IsInRecord (st : ZAM_record) (offset : Nat) : Bool :=
  st.is_in_record.getD offset false

def IsManaged (st : ZAM_record) (offset : Nat) : Bool :=
  st.is_managed.getD offset false

def HasField (st : ZAM_record) (field : Nat) : Bool :=
  st.IsInRecord field

/-- `Assign(field, v)`: Unrefs the old occupant when the field was in the
record and is managed, stores `v`, and marks the field present.  No
reference is acquired for `v` (ownership transfer from the caller). -/
def Assign (st : ZAM_record) (field : Nat) (v : ZAMValUnion) :
    ZAM_record × List MemEvent :=
  let ev :=
    if st.IsInRecord field && st.IsManaged field then
      UnrefEv (st.zvec.getD field ZAMValUnion.mkDefault).managed_val
    else []
  ({ st with
      zvec := st.zvec.set field v
      is_in_record := st.is_in_record.set field true }, ev)

/-- Modelled from the spec: `SetToDefault` is declared in ZVal.h but
defined in ZVal.cc, which is not part of src/.  Per the spec, it attempts
to materialize the type's default value for the field and store it,
returning whether a default existed. -/
def SetToDefault (st : ZAM_record) (field : Nat) : Bool × ZAM_record :=
  match st.field_default.getD field none with
  | none => (false, st)
  | some d =>
      (true,
       { st with
          zvec := st.zvec.set field d
          is_in_record := st.is_in_record.set field true })

/-- `Lookup(field, error)`: sets `error` iff the field is not in the record
and `SetToDefault` fails; returns the (possibly just defaulted) cell.
The result is `(cell, error, updated record)`. -/
def Lookup (st : ZAM_record) (field : Nat) :
    ZAMValUnion × Bool × ZAM_record :=
  if st.IsInRecord field then
    (st.zvec.getD field ZAMValUnion.mkDefault, false, st)
  else
    match st.SetToDefault field with
    | (true, st1) => (st1.zvec.getD field ZAMValUnion.mkDefault, false, st1)
    | (false, st1) => (st1.zvec.getD field ZAMValUnion.mkDefault, true, st1)

/-- `DeleteField(field)`: Unrefs the held value when the field is in the
record and managed, then marks the field absent. -/
def DeleteField (st : ZAM_record) (field : Nat) :
    ZAM_record × List MemEvent :=
  let ev :=
    if st.IsInRecord field && st.IsManaged field then
      UnrefEv (st.zvec.getD field ZAMValUnion.mkDefault).managed_val
    else []
  ({ st with is_in_record := st.is_in_record.set field false }, ev)

end ZAM_record

/-- A statement node (`Stmt` of StmtBase.h), modelled through the one piece
of state `Original()` consults: the `original` back-link, which is either
the null pointer (`base`) or a pointer to the statement this one was
derived from by a transformation pass (`derived`).  The `tag` stands for
the rest of the node's identity (`BroStmtTag` etc.). -/
inductive Stmt where
  | base (tag : Nat)
  | derived (tag : Nat) (original : Stmt)
deriving DecidableEq, Repr

namespace Stmt

/-- Whether the node's `original` member is non-null. -/
def hasOriginal : Stmt → Bool
  | .base _ => false
  | .derived _ _ => true

/-- `Original()`: `if (original) return original->Original(); else
return this;` -/
def Original : Stmt → Stmt
  | .base t => .base t
  | .derived _ o => o.Original

end Stmt

/-- Modelled from the spec: the code populating `non_recursive_funcs`
(declared in ScriptAnaly.h) lives outside src/ and, per ScriptAnaly.h's own
comment and the spec, only runs as part of inlining.  When the analysis is
disabled it never inserts anything, leaving the set at its initial, empty
value; when enabled, the set holds the analysis result.  Functions are
identified by numeric ids. -/
def non_recursive_funcs : Bool → List Nat → List Nat
  | true, analysis_result => analysis_result
  | false, _ => []

/-- A function is reported as possibly recursive iff it is absent from the
non-recursive set. -/
def reportedPossiblyRecursive (f : Nat) (nrf : List Nat) : Bool :=
  ! nrf.contains f

/-! Concrete sample types and container states used by the witness and
counterexample theorems below. -/

/-- A sample reference-managed type. -/
def strType : ZeekType := { tag := TypeTag.TYPE_STRING, managed := true }

/-- A sample scalar (unmanaged) type. -/
def intType : ZeekType := { tag := TypeTag.TYPE_INT, managed := false }

/-- A string vector holding heap objects 7 and 8. -/
def resizeVec : ZAM_vector :=
  { zvec := [⟨some 7⟩, ⟨some 8⟩]
    managed_yt := some strType
    general_yt := some strType }

/-- A string vector holding heap object 5. -/
def insertVec : ZAM_vector :=
  { zvec := [⟨some 5⟩]
    managed_yt := some strType
    general_yt := some strType }

/-- A string vector of size 1 holding heap object 4. -/
def growVec : ZAM_vector :=
  { zvec := [⟨some 4⟩]
    managed_yt := some strType
    general_yt := some strType }

/-- A string vector created with yield type `strType`. -/
def yieldVec : ZAM_vector := ZAM_vector.create (some strType) 0

/-- A one-field record with an absent managed field whose type has a
default value (heap object 21). -/
def defaultRec : ZAM_record :=
  { zvec := [⟨none⟩]
    is_in_record := [false]
    is_managed := [true]
    field_default := [some ⟨some 21⟩] }

/-- A one-field record whose managed field is present, holding heap
object 11, with no default. -/
def presentRec : ZAM_record :=
  { zvec := [⟨some 11⟩]
    is_in_record := [true]
    is_managed := [true]
    field_default := [none] }

/-! Helper lemmas shared by the claim theorems. -/

/-- `resizeList` to a size at least the current length has exactly the
requested length. -/
theorem resizeList_length_of_le (l : List ZAMValUnion) (n : Nat)
    (h : l.length ≤ n) : (resizeList l n).length = n := by
  simp [resizeList, List.take_of_length_le h]
  omega

/-- Growing via `resizeList` preserves the cells below the old length. -/
theorem resizeList_getElem?_left (l : List ZAMValUnion) (n i : Nat)
    (hi : i < l.length) (h : l.length ≤ n) :
    (resizeList l n)[i]? = l[i]? := by
  rw [resizeList, List.take_of_length_le h, List.getElem?_append_left hi]

/-- Growing via `resizeList` fills the new slots with the default cell. -/
theorem resizeList_getElem?_pad (l : List ZAMValUnion) (n i : Nat)
    (h1 : l.length ≤ i) (h2 : i < n) :
    (resizeList l n)[i]? = some ZAMValUnion.mkDefault := by
  rw [resizeList, List.take_of_length_le (Nat.le_of_lt (Nat.lt_of_le_of_lt h1 h2)),
    List.getElem?_append_right h1, List.getElem?_replicate_of_lt (by omega)]

/-- Setting index `n` to `false` leaves the lookup of index `n` (with
fallback `false`) at `false`, also out of bounds. -/
theorem getD_set_false (l : List Bool) (n : Nat) :
    (l.set n false).getD n false = false := by
  rcases Nat.lt_or_ge n l.length with h | h
  · simp [List.getD, List.getElem?_set_self h]
  · simp [List.getD, List.getElem?_eq_none (l := l.set n false) (by simpa using h)]

/-- Lookup of any index in an all-`false` list, with fallback `false`,
yields `false`. -/
theorem getD_replicate_false (m n : Nat) :
    (List.replicate m false).getD n false = false := by
  rcases Nat.lt_or_ge n m with h | h
  · simp [List.getD, List.getElem?_replicate_of_lt h]
  · simp [List.getD,
      List.getElem?_eq_none (l := List.replicate m false) (by simpa using h)]

/-- In-bounds set-then-lookup with a fallback returns the written value. -/
theorem getD_set_self (l : List ZAMValUnion) (n : Nat) (a d : ZAMValUnion)
    (h : n < l.length) : (l.set n a).getD n d = a := by
  simp [List.getD, List.getElem?_set_self h]

/-- Same for boolean lists. -/
theorem getD_set_self_bool (l : List Bool) (n : Nat) (a d : Bool)
    (h : n < l.length) : (l.set n a).getD n d = a := by
  simp [List.getD, List.getElem?_set_self h]

/-- Repeated resolution of the original-link chain is stable: the result
of `Original` has no link left to follow. -/
theorem Stmt.Original_idem (s : Stmt) : s.Original.Original = s.Original := by
  induction s with
  | base t => rfl
  | derived t o ih => simpa [Stmt.Original] using ih

/-! The claim theorems. -/

/-- Claim C5: `SetYieldType` changes the stored yield type only while the
current general yield type is null, `any`, or `void`; once the general
yield type is a concrete type (any other tag), every subsequent
`SetYieldType` call leaves the whole vector state — in particular both
`general_yt` and `managed_yt` — unchanged, for every argument. -/
theorem setYieldType_frozen (st : ZAM_vector) (yt : Option ZeekType)
    (t : ZeekType) (hg : st.general_yt = some t)
    (ha : t.tag ≠ TypeTag.TYPE_ANY) (hv : t.tag ≠ TypeTag.TYPE_VOID) :
    st.SetYieldType yt = st := by
  simp only [ZAM_vector.SetYieldType, hg]
  rw [if_neg]
  rintro (h | h)
  · exact ha h
  · exact hv h

/-- Witness for C5: a vector whose yield type is already the concrete
`strType` is unchanged by `SetYieldType intType`. -/
theorem setYieldType_frozen_witness :
    yieldVec.SetYieldType (some intType) = yieldVec :=
  setYieldType_frozen yieldVec (some intType) strType rfl
    (by decide) (by decide)

/-- Claim C7: `Original()` follows the original-link chain transitively to
its root: a node without an original link returns itself, a node with one
returns the ultimate original of its original, and the operation is
idempotent — `Original` of the result is the result itself. -/
theorem original_transitive_idempotent (s : Stmt) :
    (s.hasOriginal = false → s.Original = s)
    ∧ (∀ t o, s = Stmt.derived t o → s.Original = o.Original)
    ∧ s.Original.Original = s.Original := by
  refine ⟨?_, ?_, Stmt.Original_idem s⟩
  · intro h
    cases s with
    | base t => rfl
    | derived t o => simp [Stmt.hasOriginal] at h
  · intro t o hs
    subst hs
    rfl

/-- Witness for C7, on the two-pass chain
`derived 2 (derived 1 (base 0))`. -/
theorem original_transitive_idempotent_witness :
    ((Stmt.base 0).Original = Stmt.base 0)
    ∧ ((Stmt.derived 2 (Stmt.derived 1 (Stmt.base 0))).Original
        = (Stmt.derived 1 (Stmt.base 0)).Original)
    ∧ ((Stmt.derived 2 (Stmt.derived 1 (Stmt.base 0))).Original.Original
        = (Stmt.derived 2 (Stmt.derived 1 (Stmt.base 0))).Original) :=
  ⟨(original_transitive_idempotent (Stmt.base 0)).1 rfl,
   (original_transitive_idempotent
      (Stmt.derived 2 (Stmt.derived 1 (Stmt.base 0)))).2.1
      2 (Stmt.derived 1 (Stmt.base 0)) rfl,
   (original_transitive_idempotent
      (Stmt.derived 2 (Stmt.derived 1 (Stmt.base 0)))).2.2⟩

/-- Claim C8: when the recursion analysis is disabled (it only runs as
part of inlining), the non-recursive set is its initial empty value, so
every function is reported as possibly recursive. -/
theorem recursion_conservative_default (f : Nat)
    (analysis_result : List Nat) :
    reportedPossiblyRecursive f (non_recursive_funcs false analysis_result)
      = true := rfl

/-- Claim C10: a default-constructed `ZAMValUnion` holds the null managed
pointer, satisfies `IsNil` for every reference-managed type, and releasing
it (`DeleteManagedType`, i.e. `Unref` of null) performs no release. -/
theorem default_cell_is_nil :
    ZAMValUnion.mkDefault.managed_val = none
    ∧ (∀ t : ZeekType, t.managed = true →
        ZAMValUnion.mkDefault.IsNil t = true)
    ∧ DeleteManagedType ZAMValUnion.mkDefault = [] :=
  ⟨rfl, fun _ _ => rfl, rfl⟩

/-- Witness for C10 at the managed type `strType`. -/
theorem default_cell_is_nil_witness :
    strType.managed = true ∧ ZAMValUnion.mkDefault.IsNil strType = true :=
  ⟨rfl, default_cell_is_nil.2.1 strType rfl⟩

/-- Claim C9: for every reference-managed type `t` and non-null value
`some k` of that type, constructing a cell from the dynamic value and
converting it back yields the same value, and the reference count of `k`
is unchanged net of the balancing releases: the construct / release-cell
pair nets to zero, and the to-dynamic acquisition / release-of-the-result
pair nets to zero. -/
theorem roundtrip_managed (k : Nat) (t : ZeekType) (hm : t.managed = true) :
    (((ZAMValUnion.construct (some k) t).1.ToVal t).1 = some k)
    ∧ refDelta k ((ZAMValUnion.construct (some k) t).2
        ++ DeleteManagedType (ZAMValUnion.construct (some k) t).1) = 0
    ∧ refDelta k (((ZAMValUnion.construct (some k) t).1.ToVal t).2
        ++ UnrefEv (((ZAMValUnion.construct (some k) t).1.ToVal t).1)) = 0 := by
  simp [ZAMValUnion.construct, ZAMValUnion.ToVal, hm, DeleteManagedType,
    UnrefEv, refDelta]

/-- Witness for C9 at `k = 3`, `t = strType`. -/
theorem roundtrip_managed_witness :
    strType.managed = true
    ∧ (((ZAMValUnion.construct (some 3) strType).1.ToVal strType).1
        = some 3) :=
  ⟨rfl, (roundtrip_managed 3 strType rfl).1⟩

/-- Claim C6, evaluated on the managed one-element vector `insertVec`
(holding heap object 5): `Remove 0` does Unref the evicted element exactly
once, as claimed — but `Insert 0` also Unrefs object 5, even though that
element is not evicted: it survives the shift and is still in the vector
at index 1 after the insertion.  The claim that Insert releases no
surviving element is therefore violated by the code. -/
theorem insert_remove_eval :
    ((insertVec.Insert 0 ⟨some 9⟩).2 = [MemEvent.unref 5])
    ∧ ((insertVec.Insert 0 ⟨some 9⟩).1.zvec = [⟨some 9⟩, ⟨some 5⟩])
    ∧ ((insertVec.Remove 0).2 = [MemEvent.unref 5])
    ∧ ((insertVec.Remove 0).1.zvec = []) := by
  refine ⟨rfl, rfl, rfl, rfl⟩

/-- Claim C1 as stated is false at a concrete input: on the managed
two-element vector `resizeVec` (objects 7 and 8), `Resize 1` evicts the
element at index 1 (object 8) but Unrefs it zero times, not exactly
once. -/
theorem resize_claim_cex :
    ¬ (List.count (MemEvent.unref 8) ((resizeVec.Resize 1).2) = 1) := by
  decide

/-- Claim C1 (amended): `Resize(m)` with `m` at most the current size
truncates the storage to its first `m` elements and performs no release
at all — the evicted managed elements are discarded without any Unref. -/
theorem resize_truncates_without_release (st : ZAM_vector) (m : Nat)
    (h : m ≤ st.zvec.length) :
    ((st.Resize m).1.zvec = st.zvec.take m) ∧ ((st.Resize m).2 = []) := by
  constructor
  · simp [ZAM_vector.Resize, resizeList, Nat.sub_eq_zero_of_le h]
  · rfl

/-- Witness for the amended C1 on `resizeVec`. -/
theorem resize_truncates_without_release_witness :
    ((resizeVec.Resize 1).1.zvec = resizeVec.zvec.take 1)
    ∧ ((resizeVec.Resize 1).2 = []) :=
  resize_truncates_without_release resizeVec 1 (by decide)

/-- Claim C3: `Lookup(field)` reports an error iff the field is absent and
no default value can be materialized for it; when a default exists for an
absent field, the default is stored in the record and returned with no
error.  The operation is total — the failure is visible only through the
returned error flag. -/
theorem lookup_absent_default_error (st : ZAM_record) (f : Nat)
    (hz : f < st.zvec.length) (hi : f < st.is_in_record.length) :
    ((st.Lookup f).2.1 = true
      ↔ (st.IsInRecord f = false ∧ st.field_default.getD f none = none))
    ∧ (st.IsInRecord f = false →
        ∀ d, st.field_default.getD f none = some d →
          (st.Lookup f).1 = d
          ∧ (st.Lookup f).2.1 = false
          ∧ (st.Lookup f).2.2.zvec.getD f ZAMValUnion.mkDefault = d
          ∧ (st.Lookup f).2.2.IsInRecord f = true) := by
  cases hIn : st.IsInRecord f with
  | true =>
      have hL : st.Lookup f
          = (st.zvec.getD f ZAMValUnion.mkDefault, false, st) := by
        unfold ZAM_record.Lookup
        rw [hIn]
        simp
      constructor
      · rw [hL]
        simp
      · intro hFalse
        exact Bool.noConfusion hFalse
  | false =>
      cases hD : st.field_default.getD f none with
      | none =>
          have hSD : st.SetToDefault f = (false, st) := by
            unfold ZAM_record.SetToDefault
            rw [hD]
          have hL : st.Lookup f
              = (st.zvec.getD f ZAMValUnion.mkDefault, true, st) := by
            unfold ZAM_record.Lookup
            rw [hIn, hSD]
            simp
          constructor
          · rw [hL]
            simp
          · intro _ d hd
            exact Option.noConfusion hd
      | some d0 =>
          have hSD : st.SetToDefault f
              = (true,
                 { st with
                    zvec := st.zvec.set f d0
                    is_in_record := st.is_in_record.set f true }) := by
            unfold ZAM_record.SetToDefault
            rw [hD]
          have hL : st.Lookup f
              = ((st.zvec.set f d0).getD f ZAMValUnion.mkDefault, false,
                 { st with
                    zvec := st.zvec.set f d0
                    is_in_record := st.is_in_record.set f true }) := by
            unfold ZAM_record.Lookup
            rw [hIn, hSD]
            simp
          constructor
          · rw [hL]
            simp
          · intro _ d hd
            injection hd with hd0
            subst hd0
            rw [hL]
            exact ⟨getD_set_self _ _ _ _ hz, rfl,
              getD_set_self _ _ _ _ hz, getD_set_self_bool _ _ _ _ hi⟩

/-- Witness for C3 on `defaultRec`: field 0 is absent but has a default,
so `Lookup` returns it without error and the field becomes present. -/
theorem lookup_absent_default_error_witness :
    ((defaultRec.Lookup 0).2.1 = false)
    ∧ ((defaultRec.Lookup 0).1 = ⟨some 21⟩)
    ∧ ((defaultRec.Lookup 0).2.2.IsInRecord 0 = true) :=
  have h := lookup_absent_default_error defaultRec 0 (by decide) (by decide)
  have h2 := h.2 rfl ⟨some 21⟩ rfl
  ⟨h2.2.1, h2.1, h2.2.2.2⟩

/-- Claim C4: a freshly created record has `HasField f = false` for every
field; `Assign f v` marks the field present and Unrefs the prior occupant
(object `p`) exactly once precisely when the field was previously
present-and-managed, acquiring no reference for `v`; `DeleteField f`
Unrefs the held object exactly once precisely when the field is
present-and-managed and leaves `HasField f = false`. -/
theorem record_field_lifecycle (md : List Bool)
    (dfl : List (Option ZAMValUnion)) (st : ZAM_record) (f : Nat)
    (v : ZAMValUnion) (p : Nat)
    (hi : f < st.is_in_record.length)
    (hp : (st.zvec.getD f ZAMValUnion.mkDefault).managed_val = some p) :
    ((ZAM_record.create md dfl).HasField f = false)
    ∧ ((st.Assign f v).1.HasField f = true)
    ∧ (List.count (MemEvent.unref p) ((st.Assign f v).2)
        = if st.IsInRecord f && st.IsManaged f then 1 else 0)
    ∧ (((st.Assign f v).2).all (fun e => ! e.isRef) = true)
    ∧ (List.count (MemEvent.unref p) ((st.DeleteField f).2)
        = if st.IsInRecord f && st.IsManaged f then 1 else 0)
    ∧ ((st.DeleteField f).1.HasField f = false) := by
  have hcreate : (ZAM_record.create md dfl).HasField f = false := by
    show (List.replicate md.length false).getD f false = false
    exact getD_replicate_false _ _
  have hassign1 : (st.Assign f v).1.HasField f = true := by
    show (st.is_in_record.set f true).getD f false = true
    exact getD_set_self_bool _ _ _ _ hi
  have hdel1 : (st.DeleteField f).1.HasField f = false := by
    show (st.is_in_record.set f false).getD f false = false
    exact getD_set_false _ _
  have hevA : (st.Assign f v).2
      = (if st.IsInRecord f && st.IsManaged f
         then [MemEvent.unref p] else []) := by
    show (if st.IsInRecord f && st.IsManaged f
        then UnrefEv (st.zvec.getD f ZAMValUnion.mkDefault).managed_val
        else []) = _
    rw [hp]
    simp [UnrefEv]
  have hevD : (st.DeleteField f).2
      = (if st.IsInRecord f && st.IsManaged f
         then [MemEvent.unref p] else []) := by
    show (if st.IsInRecord f && st.IsManaged f
        then UnrefEv (st.zvec.getD f ZAMValUnion.mkDefault).managed_val
        else []) = _
    rw [hp]
    simp [UnrefEv]
  refine ⟨hcreate, hassign1, ?_, ?_, ?_, hdel1⟩
  · rw [hevA]
    cases st.IsInRecord f && st.IsManaged f <;> simp
  · rw [hevA]
    cases st.IsInRecord f && st.IsManaged f <;> simp [MemEvent.isRef]
  · rw [hevD]
    cases st.IsInRecord f && st.IsManaged f <;> simp

/-- Witness for C4 on `presentRec` (field 0 present-and-managed, holding
object 11). -/
theorem record_field_lifecycle_witness :
    ((ZAM_record.create [true] [none]).HasField 0 = false)
    ∧ (List.count (MemEvent.unref 11) ((presentRec.DeleteField 0).2) = 1)
    ∧ ((presentRec.DeleteField 0).1.HasField 0 = false) :=
  have h := record_field_lifecycle [true] [none] presentRec 0
    ZAMValUnion.mkDefault 11 (by decide) rfl
  ⟨h.1, by rw [h.2.2.2.2.1]; decide, h.2.2.2.2.2⟩

/-- Claim C2: `SetElement k x` on a vector of size at most `k` grows the
storage to `k + 1` cells, leaves the cells below the old size unchanged,
fills the intermediate cells with the managed-nil default cell, stores `x`
at index `k`, and performs no memory-management event at all: the previous
occupant of slot `k` is the freshly zero-filled nil cell, so the managed
release is a no-op, and no reference is acquired for `x`. -/
theorem setElement_grows (st : ZAM_vector) (k : Nat) (x : ZAMValUnion)
    (h : st.zvec.length ≤ k) :
    ((st.SetElement k x).1.zvec.length = k + 1)
    ∧ (∀ i, i < st.zvec.length →
        ((st.SetElement k x).1.zvec)[i]? = (st.zvec)[i]?)
    ∧ (∀ i, st.zvec.length ≤ i → i < k →
        ((st.SetElement k x).1.zvec)[i]? = some ZAMValUnion.mkDefault)
    ∧ (((st.SetElement k x).1.zvec)[k]? = some x)
    ∧ ((st.SetElement k x).2 = []) := by
  have hk1 : st.zvec.length ≤ k + 1 := Nat.le_succ_of_le h
  have hlen : (resizeList st.zvec (k + 1)).length = k + 1 :=
    resizeList_length_of_le _ _ hk1
  have hLk : (resizeList st.zvec (k + 1)).getD k ZAMValUnion.mkDefault
      = ZAMValUnion.mkDefault := by
    simp [List.getD,
      resizeList_getElem?_pad st.zvec (k + 1) k h (Nat.lt_succ_self k)]
  have hres : st.SetElement k x
      = ({ st with zvec := (resizeList st.zvec (k + 1)).set k x }, []) := by
    simp only [ZAM_vector.SetElement, if_pos h, ZAM_vector.GrowVector,
      ZAM_vector.Lookup]
    rw [hLk]
    simp [DeleteManagedType, ZAMValUnion.mkDefault, UnrefEv]
  refine ⟨?_, ?_, ?_, ?_, ?_⟩
  · rw [hres]
    simp [hlen]
  · intro i hi
    rw [hres]
    have hne : k ≠ i := by omega
    simp only []
    rw [List.getElem?_set_ne hne,
      resizeList_getElem?_left st.zvec (k + 1) i hi hk1]
  · intro i h1 h2
    rw [hres]
    have hne : k ≠ i := by omega
    simp only []
    rw [List.getElem?_set_ne hne,
      resizeList_getElem?_pad st.zvec (k + 1) i h1 (by omega)]
  · rw [hres]
    exact List.getElem?_set_self (by omega)
  · rw [hres]

/-- Witness for C2: growing the one-element `growVec` by setting index 3. -/
theorem setElement_grows_witness :
    ((growVec.SetElement 3 ⟨some 9⟩).1.zvec.length = 4)
    ∧ ((growVec.SetElement 3 ⟨some 9⟩).1.zvec)[0]? = (growVec.zvec)[0]?
    ∧ ((growVec.SetElement 3 ⟨some 9⟩).1.zvec)[1]?
        = some ZAMValUnion.mkDefault
    ∧ ((growVec.SetElement 3 ⟨some 9⟩).1.zvec)[3]? = some ⟨some 9⟩
    ∧ ((growVec.SetElement 3 ⟨some 9⟩).2 = []) :=
  have h := setElement_grows growVec 3 ⟨some 9⟩ (by decide)
  ⟨h.1, h.2.1 0 (by decide), h.2.2.1 1 (by decide) (by decide),
   h.2.2.2.1, h.2.2.2.2⟩

end ZeekModel
